import Mathlib

/-!
Shallow embedding of the xann in-memory vector store core
(`IdManager`, `VectorBatch`, `MemStore`, `MetricRegistry`) and proofs
about the properties its specification states.

Machine integers: labels, local ids (lids) and statuses are `uint64_t`
in the source; no operation performs wrap-around arithmetic on them
(the only increment, `_next_id++`, is bounded by `_ids.size()`), so they
are modelled as `Nat`.  `MetricType` is `int32_t` and is modelled as
`Int`.  Error statuses (`turbo::Status` / `turbo::Result`) are modelled
by `Except ErrKind`, keeping only the error kind.
-/

namespace Xann

set_option maxRecDepth 8000

/-- The error kinds used by the core (turbo status codes). -/
inductive ErrKind where
  | invalidArgument
  | alreadyExists
  | notFound
  | outOfRange
  | resourceExhausted
  | unavailable
  | failedPrecondition
deriving DecidableEq, Repr

instance {e : Type} {a : Type} [DecidableEq e] [DecidableEq a] :
    DecidableEq (Except e a)
  | .error x, .error y =>
      if h : x = y then .isTrue (h ▸ rfl)
      else .isFalse (fun hc => h (Except.error.injEq .. ▸ hc))
  | .error _, .ok _ => .isFalse (fun hc => Except.noConfusion hc)
  | .ok _, .error _ => .isFalse (fun hc => Except.noConfusion hc)
  | .ok x, .ok y =>
      if h : x = y then .isTrue (h ▸ rfl)
      else .isFalse (fun hc => h (Except.ok.injEq .. ▸ hc))

/-- `IdManager::kInvalidId = std::numeric_limits<uint64_t>::max()`. -/
def kInvalidId : Nat := 2 ^ 64 - 1

/-- `IdManager::kDefaultGrowth = 256`. -/
def kDefaultGrowth : Nat := 256

/-- `LabelEntity`: one slot of the id pool, a label plus an opaque status.
A default-constructed entity has `label = kInvalidId` and `status = 0`. -/
structure LabelEntity where
  label : Nat := kInvalidId
  status : Nat := 0
deriving DecidableEq, Repr

instance : Inhabited LabelEntity := ⟨{}⟩

/-- Point update of a `turbo::flat_hash_map<uint64_t,uint64_t>` modelled as
a partial function: `m[k] = v`. -/
def mapInsert (m : Nat → Option Nat) (k v : Nat) : Nat → Option Nat :=
  fun x => if x = k then some v else m x

/-- `m.erase(k)` on the hash-map model. -/
def mapErase (m : Nat → Option Nat) (k : Nat) : Nat → Option Nat :=
  fun x => if x = k then none else m x

/-- In-place update of `_ids[i]`; the C++ code only performs it at indices
that are in bounds of the vector, so out-of-range indices leave the list
unchanged. -/
def setEntry (l : List LabelEntity) (i : Nat) (e : LabelEntity) : List LabelEntity :=
  if i < l.length then l.set i e else l

/-- `IdManager`: mirror of the private state
(`_free_ids`, `_ids`, `_next_id`, `_reserved_id`, `_id_map`, `_initialized`).
`_free_ids` is a `turbo::btree_set<uint64_t>` (an ordered set), modelled as a
`Finset Nat`; its smallest element models `*begin()`. -/
structure IdManager where
  free_ids : Finset Nat := ∅
  ids : List LabelEntity := []
  next_id : Nat := 0
  reserved_id : Nat := 0
  id_map : Nat → Option Nat := fun _ => none
  inited : Bool := false

/-- The body of `IdManager::shrink_next_id` as a fuel-indexed loop:
while `next > reserved` and `next - 1` is in the free set, erase it and
decrement `next`.  The loop runs at most `next` times, so `shrinkNextId`
below passes `next` as fuel and never hits the fuel-exhausted branch. -/
def shrinkLoop : Nat → Finset Nat → Nat → Nat → Finset Nat × Nat
  | 0, free, next, _ => (free, next)
  | fuel + 1, free, next, reserved =>
      if reserved < next ∧ (next - 1) ∈ free then
        shrinkLoop fuel (free.erase (next - 1)) (next - 1) reserved
      else (free, next)

/-- `IdManager::shrink_next_id`, acting on the `(free set, next id)` pair. -/
def shrinkNextId (reserved : Nat) (free : Finset Nat) (next : Nat) : Finset Nat × Nat :=
  shrinkLoop next free next reserved

/-- The per-index body of the pool scan in `IdManager::initialize`:
a slot whose label is `kInvalidId` goes to the free set, any other slot
installs `label -> index` in the id map. -/
def scanPool (ids : List LabelEntity) :
    List Nat → Finset Nat × (Nat → Option Nat) → Finset Nat × (Nat → Option Nat)
  | [], acc => acc
  | i :: rest, acc =>
      if (ids.getD i default).label = kInvalidId then
        scanPool ids rest (insert i acc.1, acc.2)
      else
        scanPool ids rest (acc.1, mapInsert acc.2 (ids.getD i default).label i)

/-- Modelled from the spec: the `turbo::Status`-returning body of
`IdManager::initialize` is absent from the sources (the header declares
`turbo::Status initialize(...)` and `MemStore::init` returns its result, but
the only definition present is a stale `void`-returning variant without any
validity check).  The scan, the resize to `next_id + kDefaultGrowth` and the
idempotence are taken from that variant; the failure clause is the spec's
sentence that it fails with `InvalidArgument` iff `reserved_id > next_id`. -/
def IdManager.initializeM (s : IdManager) (pool : List LabelEntity)
    (reserved next : Nat) : Except ErrKind Unit × IdManager :=
  if s.inited then (.ok (), s)
  else if next < reserved then (.error .invalidArgument, s)
  else
    let ids1 :=
      if pool.length < next then
        pool ++ List.replicate (next + kDefaultGrowth - pool.length) default
      else pool
    let fm := scanPool ids1 (List.range' reserved (next - reserved)) (s.free_ids, s.id_map)
    (.ok (), { free_ids := fm.1, ids := ids1, next_id := next, reserved_id := reserved,
               id_map := fm.2, inited := true })

/-- `IdManager::alloc_id`.  The `KCHECK(_initialized)` precondition is carried
as a hypothesis by the theorems that use the operation. -/
def IdManager.alloc_id (s : IdManager) (label : Nat) : Except ErrKind Nat × IdManager :=
  if (s.id_map label).isSome then (.error .alreadyExists, s)
  else if h : s.free_ids.Nonempty then
    let lid := s.free_ids.min' h
    (.ok lid,
      { s with free_ids := s.free_ids.erase lid,
               id_map := mapInsert s.id_map label lid,
               ids := setEntry s.ids lid { s.ids.getD lid default with label := label } })
  else if s.next_id < s.ids.length then
    (.ok s.next_id,
      { s with next_id := s.next_id + 1,
               id_map := mapInsert s.id_map label s.next_id,
               ids := setEntry s.ids s.next_id
                        { s.ids.getD s.next_id default with label := label } })
  else (.error .resourceExhausted, s)

/-- `IdManager::free_id`: erase the label from the map first; if its lid is
out of the pool's range nothing else happens, otherwise the slot is reset to
`(kInvalidId, 0)`, the lid joins the free set and the trailing compaction
runs. -/
def IdManager.free_id (s : IdManager) (label : Nat) : IdManager :=
  match s.id_map label with
  | none => s
  | some lid =>
      let s1 := { s with id_map := mapErase s.id_map label }
      if s1.ids.length ≤ lid then s1
      else
        let s2 := { s1 with ids := setEntry s1.ids lid { label := kInvalidId, status := 0 },
                            free_ids := insert lid s1.free_ids }
        let fn := shrinkNextId s2.reserved_id s2.free_ids s2.next_id
        { s2 with free_ids := fn.1, next_id := fn.2 }

/-- `IdManager::free_local_id`: no-op when `lid` is out of the pool's range;
otherwise erases the slot's current label from the map, resets the slot,
inserts `lid` into the free set and runs the trailing compaction. -/
def IdManager.free_local_id (s : IdManager) (lid : Nat) : IdManager :=
  if s.ids.length ≤ lid then s
  else
    let oldLabel := (s.ids.getD lid default).label
    let s1 := { s with id_map := mapErase s.id_map oldLabel,
                       ids := setEntry s.ids lid { label := kInvalidId, status := 0 },
                       free_ids := insert lid s.free_ids }
    let fn := shrinkNextId s1.reserved_id s1.free_ids s1.next_id
    { s1 with free_ids := fn.1, next_id := fn.2 }

/-- `IdManager::set_reserved_id`: after `KCHECK(lid < _reserved_id)` the body
executes `_id_map[lid] = label` — the map entry it installs is keyed by the
lid and stores the label as value.  The `KCHECK` is carried as a hypothesis
by theorems that need it. -/
def IdManager.set_reserved_id (s : IdManager) (lid label : Nat) : IdManager :=
  { s with id_map := mapInsert s.id_map lid label }

/-- `IdManager::set_local_id_status`: overwrite only the status field,
no-op when `lid` is out of the pool's range. -/
def IdManager.set_local_id_status (s : IdManager) (lid status : Nat) : IdManager :=
  if s.ids.length ≤ lid then s
  else { s with ids := setEntry s.ids lid { s.ids.getD lid default with status := status } }

/-- `IdManager::set_label_status`: look the label up, then delegate. -/
def IdManager.set_label_status (s : IdManager) (label status : Nat) : IdManager :=
  match s.id_map label with
  | none => s
  | some lid => s.set_local_id_status lid status

/-- Modelled from the spec: `IdManager::local_id` is declared in the header
and called by `MemStore`, but its body is not among the source files; the
spec says it is a pure lookup that fails with `NotFound` iff the label is
absent. -/
def IdManager.local_id (s : IdManager) (label : Nat) : Except ErrKind Nat :=
  match s.id_map label with
  | some lid => .ok lid
  | none => .error .notFound

/-! ## Vector batch and memory store -/

/-- `VectorBatch`: `_vector_byte_size`, `_capacity` and the `_data` slab
(a byte buffer of `vector_byte_size * n` bytes after `init`).  Bytes are
`Nat` values below 256; nothing here depends on the bound. -/
structure VectorBatch where
  vector_byte_size : Nat := 0
  capacity : Nat := 0
  data : List Nat := []
deriving DecidableEq, Repr

instance : Inhabited VectorBatch := ⟨{}⟩

/-- `VectorBatch::init(vector_byte_size, n)`: allocates `vector_byte_size * n`
bytes and sets `_capacity = n`.  The source never assigns
`_vector_byte_size`, so the field keeps its previous value (0 for a fresh
batch); the model mirrors that.  Allocation failure (`Unavailable`) is not
modelled: allocation always succeeds here, and the slab's undefined contents
are modelled as zeros (no claim depends on them). -/
def VectorBatch.init (b : VectorBatch) (vector_byte_size n : Nat) : VectorBatch :=
  { b with data := List.replicate (vector_byte_size * n) 0, capacity := n }

/-- `VectorBatch::at(index)` as a span descriptor: `none` is the
default-constructed empty span (null data) returned when
`index >= _capacity`; otherwise `some (offset, length)` describes the window
`[_data + index * _vector_byte_size, _vector_byte_size)`. -/
def VectorBatch.atSpan (b : VectorBatch) (index : Nat) : Option (Nat × Nat) :=
  if b.capacity ≤ index then none
  else some (index * b.vector_byte_size, b.vector_byte_size)

/-- The bytes seen through the span `VectorBatch::at(index)` returns. -/
def VectorBatch.at (b : VectorBatch) (index : Nat) : List Nat :=
  match b.atSpan index with
  | none => []
  | some (o, l) => (b.data.drop o).take l

/-- `memcpy(data + off, v, v.length)` inside a byte buffer; the final `take`
keeps the buffer's length (the in-scope uses stay within the buffer). -/
def writeBytes (data : List Nat) (off : Nat) (v : List Nat) : List Nat :=
  (data.take off ++ v ++ data.drop (off + v.length)).take data.length

/-- `VectorStoreOption`: the fields of the construction configuration that
`store.cc` reads (`reserved`, `batch_size`, `max_elements`). -/
structure VectorStoreOption where
  reserved : Nat
  batch_size : Nat
  max_elements : Nat
deriving DecidableEq, Repr

/-- `MemStore`: `_vector_space` is reduced to the one field the store reads,
`vector_byte_size`; `_vector_batches`, `_id_manager`, `_option` and
`_snapshot_id` are as in the source.  The lock is not modelled (single
worlds of serialized operations). -/
structure MemStore where
  vector_byte_size : Nat
  vector_batches : List VectorBatch := []
  id_manager : IdManager := {}
  option : VectorStoreOption
  snapshot_id : Nat := 0

/-- `MemStore::init`: fresh id manager, initialized with an empty pool,
`option.reserved` and `option.reserved + 1`; returns that status. -/
def MemStore.init (vbs : Nat) (opt : VectorStoreOption) : Except ErrKind Unit × MemStore :=
  let im := IdManager.initializeM {} [] opt.reserved (opt.reserved + 1)
  (im.1, { vector_byte_size := vbs, vector_batches := [], id_manager := im.2,
           option := opt, snapshot_id := 0 })

/-- `MemStore::ensure_space(lid)`: fails with `OutOfRange` when
`lid >= max_elements`; otherwise grows `_vector_batches` until
`lid / batch_size` is materialized (each new batch built by
`init(vector_byte_size, batch_size)`, which cannot fail in the model) and
returns `_vector_batches[bi].at(si)`: the grown store plus the span,
`some (batch index, byte offset, length)`, or `none` for the default empty
span. -/
def MemStore.ensure_space (s : MemStore) (lid : Nat) :
    Except ErrKind (MemStore × Option (Nat × Nat × Nat)) :=
  if s.option.max_elements ≤ lid then .error .outOfRange
  else
    let bi := lid / s.option.batch_size
    let si := lid % s.option.batch_size
    let grown :=
      if bi + 1 ≤ s.vector_batches.length then s.vector_batches
      else s.vector_batches ++
        List.replicate (bi + 1 - s.vector_batches.length)
          (VectorBatch.init {} s.vector_byte_size s.option.batch_size)
    let s1 : MemStore := { s with vector_batches := grown }
    match (grown.getD bi default).atSpan si with
    | none => .ok (s1, none)
    | some (o, l) => .ok (s1, some (bi, o, l))

/-- `MemStore::add_vector`: allocate a lid, ensure backing space, then
`memcpy(sp.data(), vector.data(), vector.size())` through the span and stamp
the snapshot id.  A `none` span would make that memcpy dereference null
(undefined behavior); the model performs no write in that case. -/
def MemStore.add_vector (s : MemStore) (snap label : Nat) (v : List Nat) :
    Except ErrKind Nat × MemStore :=
  match s.id_manager.alloc_id label with
  | (.error e, m) => (.error e, { s with id_manager := m })
  | (.ok lid, m) =>
      let s1 : MemStore := { s with id_manager := m }
      match s1.ensure_space lid with
      | .error e => (.error e, s1)
      | .ok (s2, none) => (.ok lid, { s2 with snapshot_id := snap })
      | .ok (s2, some (bi, off, _)) =>
          let b := s2.vector_batches.getD bi default
          let b1 := { b with data := writeBytes b.data off v }
          (.ok lid, { s2 with vector_batches := s2.vector_batches.set bi b1,
                              snapshot_id := snap })

/-- `MemStore::get_vector_by_id`: the source indexes `_vector_batches[bi]`
without a bounds check; `none` models that out-of-bounds access (undefined
behavior).  In bounds, an empty span from `at` becomes `OutOfRange`,
otherwise the span's bytes are returned. -/
def MemStore.get_vector_by_id (s : MemStore) (lid : Nat) :
    Option (Except ErrKind (List Nat)) :=
  match s.vector_batches.get? (lid / s.option.batch_size) with
  | none => none
  | some b =>
      if b.at (lid % s.option.batch_size) = [] then some (.error .outOfRange)
      else some (.ok (b.at (lid % s.option.batch_size)))

/-- `MemStore::get_vector_by_label`: label lookup through the id manager,
then the same unchecked `_vector_batches[bi]` access as `get_vector_by_id`. -/
def MemStore.get_vector_by_label (s : MemStore) (label : Nat) :
    Option (Except ErrKind (List Nat)) :=
  match s.id_manager.local_id label with
  | .error e => some (.error e)
  | .ok lid =>
      match s.vector_batches.get? (lid / s.option.batch_size) with
      | none => none
      | some b =>
          if b.at (lid % s.option.batch_size) = [] then some (.error .outOfRange)
          else some (.ok (b.at (lid % s.option.batch_size)))

/-- `MemStore::get_id`: delegates to `IdManager::local_id`. -/
def MemStore.get_id (s : MemStore) (label : Nat) : Except ErrKind Nat :=
  s.id_manager.local_id label

/-! ## Operator registry -/

/-- `OperatorEntity` metadata.  The three function-pointer fields
(`distance_vector`, `norm_vector`, `normalize_vector`) are outside the
model: no claim about the registry depends on them. -/
structure OperatorEntity where
  supports : Bool := false
  need_normalize_vector : Bool := false
  simd_level : Int := 0
  metric : Int := 0
  data_type : Int := 0
deriving DecidableEq, Repr

instance : Inhabited OperatorEntity := ⟨{}⟩

/-- `SimdLevelMap`: an init flag plus a vector of `SIMD_MAX = 4` operator
slots (the source over-indexes this inner vector by simd level again). -/
structure SimdLevelMap where
  init : Bool := false
  operators : List OperatorEntity := List.replicate 4 {}
deriving DecidableEq, Repr

instance : Inhabited SimdLevelMap := ⟨{}⟩

/-- `DataTypeMap`: init flag plus `DT_MAX = 4` simd-level cells. -/
structure DataTypeMap where
  init : Bool := false
  operators : List SimdLevelMap := List.replicate 4 {}
deriving DecidableEq, Repr

instance : Inhabited DataTypeMap := ⟨{}⟩

/-- `MetricLevelMap`: init flag plus `kMetricTypeMax = 30` data-type cells. -/
structure MetricLevelMap where
  init : Bool := false
  operators : List DataTypeMap := List.replicate 30 {}
deriving DecidableEq, Repr

instance : Inhabited MetricLevelMap := ⟨{}⟩

/-- `MetricRegistry`: `_finish_build` and the `kMetricTypeMax`-sized
metric-level table. -/
structure MetricRegistry where
  finish_build : Bool := false
  metric_level_map : List MetricLevelMap := List.replicate 30 {}
deriving DecidableEq, Repr

/-- `MetricRegistry::register_operator`: mirrors the source's order of
checks and its side effects (each axis's init flag is set as soon as the
walk reaches it, before later checks can still fail). -/
def MetricRegistry.register_operator (r : MetricRegistry) (op : OperatorEntity)
    (replace : Bool) : Except ErrKind Unit × MetricRegistry :=
  if r.finish_build then (.error .failedPrecondition, r)
  else if op.metric ≤ 0 ∨ 30 ≤ op.metric then (.error .invalidArgument, r)
  else
    let mi := op.metric.toNat
    let mit := r.metric_level_map.getD mi default
    let mit1 := { mit with init := true }
    if op.data_type ≤ 0 ∨ 4 ≤ op.data_type then
      let r1 := { r with metric_level_map := r.metric_level_map.set mi mit1 }
      (.error .invalidArgument, r1)
    else
      let di := op.data_type.toNat
      let dit := mit1.operators.getD di default
      let dit1 := { dit with init := true }
      let mit2 := { mit1 with operators := mit1.operators.set di dit1 }
      if op.simd_level < 0 ∨ 4 ≤ op.simd_level then
        let r2 := { r with metric_level_map := r.metric_level_map.set mi mit2 }
        (.error .invalidArgument, r2)
      else
        let si := op.simd_level.toNat
        let sit := dit1.operators.getD si default
        if sit.init ∧ ¬replace then
          let r2 := { r with metric_level_map := r.metric_level_map.set mi mit2 }
          (.error .alreadyExists, r2)
        else
          let sit1 := { sit with init := true, operators := sit.operators.set si op }
          let dit2 := { dit1 with operators := dit1.operators.set si sit1 }
          let mit3 := { mit1 with operators := mit1.operators.set di dit2 }
          (.ok (), { r with metric_level_map := r.metric_level_map.set mi mit3 })

/-- `MetricRegistry::get_metric_operator`: axis range checks return
`InvalidArgument`; an unpopulated metric or data-type axis returns
`Unavailable`; an unpopulated simd cell returns — exactly as the source
does — `turbo::already_exists_error("unavailable simd level:", ...)`,
i.e. kind `AlreadyExists`. -/
def MetricRegistry.get_metric_operator (r : MetricRegistry)
    (metric dt simd : Int) : Except ErrKind OperatorEntity :=
  if metric ≤ 0 ∨ 30 ≤ metric then .error .invalidArgument
  else
    let mit := r.metric_level_map.getD metric.toNat default
    if mit.init = false then .error .unavailable
    else if dt ≤ 0 ∨ 4 ≤ dt then .error .invalidArgument
    else
      let dit := mit.operators.getD dt.toNat default
      if dit.init = false then .error .unavailable
      else if simd < 0 ∨ 4 ≤ simd then .error .invalidArgument
      else
        let sit := dit.operators.getD simd.toNat default
        if sit.init = false then .error .alreadyExists
        else .ok (sit.operators.getD simd.toNat default)

/-! ## Invariants and operation sequences -/

/-- Spec P2, the free-set domain invariant:
every lid in the free set lies in the active range and its pool slot is
marked with the sentinel. -/
abbrev P2 (s : IdManager) : Prop :=
  ∀ f ∈ s.free_ids,
    s.reserved_id ≤ f ∧ f < s.next_id ∧ (s.ids.getD f default).label = kInvalidId

/-- Spec P3, trailing compactness:
`next_id == reserved_id` or `next_id - 1` is not free. -/
abbrev P3 (s : IdManager) : Prop :=
  s.next_id = s.reserved_id ∨ (s.next_id - 1) ∉ s.free_ids

/-- The inductive invariant the public mutations preserve; the claims'
invariants are projections of it. -/
structure Inv (s : IdManager) : Prop where
  free_lb : ∀ f ∈ s.free_ids, s.reserved_id ≤ f
  free_ub : ∀ f ∈ s.free_ids, f < s.next_id
  free_sentinel : ∀ f ∈ s.free_ids, (s.ids.getD f default).label = kInvalidId
  map_agree : ∀ l lid, s.id_map l = some lid → (s.ids.getD lid default).label = l
  map_lt : ∀ l lid, s.id_map l = some lid → lid < s.next_id
  map_ge : ∀ l lid, s.id_map l = some lid → s.reserved_id ≤ lid
  map_not_free : ∀ l lid, s.id_map l = some lid → lid ∉ s.free_ids
  res_le_next : s.reserved_id ≤ s.next_id
  next_le_len : s.next_id ≤ s.ids.length

theorem Inv.p2 {s : IdManager} (h : Inv s) : P2 s :=
  fun f hf => ⟨h.free_lb f hf, h.free_ub f hf, h.free_sentinel f hf⟩

/-- One public mutation of the id manager. -/
inductive IdOp where
  | alloc (label : Nat)
  | freeId (label : Nat)
  | freeLocalId (lid : Nat)
  | setReservedId (lid label : Nat)
  | setLabelStatus (label status : Nat)
  | setLocalIdStatus (lid status : Nat)
deriving DecidableEq, Repr

/-- Apply one public mutation (value results are discarded). -/
def IdManager.applyOp (s : IdManager) : IdOp → IdManager
  | .alloc l => (s.alloc_id l).2
  | .freeId l => s.free_id l
  | .freeLocalId lid => s.free_local_id lid
  | .setReservedId lid l => s.set_reserved_id lid l
  | .setLabelStatus l st => s.set_label_status l st
  | .setLocalIdStatus lid st => s.set_local_id_status lid st

/-- Apply a sequence of public mutations, left to right. -/
def IdManager.applyOps (s : IdManager) (ops : List IdOp) : IdManager :=
  ops.foldl IdManager.applyOp s

/-- Side condition on one call: `free_local_id` is only used with a lid in
the active range, and the reserved-range back door `set_reserved_id` is not
used (it installs a lid-keyed entry in the label-keyed map, see `C6`). -/
def goodOp (s : IdManager) : IdOp → Bool
  | .freeLocalId lid => decide (s.reserved_id ≤ lid) && decide (lid < s.next_id)
  | .setReservedId _ _ => false
  | _ => true

/-- The side condition along a whole sequence, evaluated at each call's
pre-state. -/
def goodOps (s : IdManager) : List IdOp → Bool
  | [] => true
  | op :: rest => goodOp s op && goodOps (s.applyOp op) rest

/-! ## Basic lemmas about the state helpers -/

theorem setEntry_length (l : List LabelEntity) (i : Nat) (e : LabelEntity) :
    (setEntry l i e).length = l.length := by
  unfold setEntry
  split <;> simp

theorem setEntry_getD_self {l : List LabelEntity} {i : Nat} (e : LabelEntity)
    (h : i < l.length) (d : LabelEntity) : (setEntry l i e).getD i d = e := by
  unfold setEntry
  rw [if_pos h, List.getD_eq_getElem?_getD, List.getElem?_set_self h]
  rfl

theorem setEntry_getD_ne {l : List LabelEntity} {i j : Nat} (e : LabelEntity)
    (h : i ≠ j) (d : LabelEntity) : (setEntry l i e).getD j d = l.getD j d := by
  unfold setEntry
  split
  · rw [List.getD_eq_getElem?_getD, List.getElem?_set_ne h, ← List.getD_eq_getElem?_getD]
  · rfl

theorem mapInsert_self (m : Nat → Option Nat) (k v : Nat) :
    mapInsert m k v k = some v := by
  simp [mapInsert]

theorem mapInsert_ne (m : Nat → Option Nat) {k v x : Nat} (h : x ≠ k) :
    mapInsert m k v x = m x := by
  simp [mapInsert, h]

theorem mapInsert_eq_some {m : Nat → Option Nat} {k v x w : Nat}
    (h : mapInsert m k v x = some w) : (x = k ∧ w = v) ∨ (x ≠ k ∧ m x = some w) := by
  by_cases hx : x = k
  · subst hx
    rw [mapInsert_self] at h
    exact Or.inl ⟨rfl, (Option.some_inj.mp h).symm⟩
  · exact Or.inr ⟨hx, by rwa [mapInsert_ne m hx] at h⟩

theorem mapErase_eq_some {m : Nat → Option Nat} {k x w : Nat}
    (h : mapErase m k x = some w) : x ≠ k ∧ m x = some w := by
  by_cases hx : x = k
  · subst hx
    simp [mapErase] at h
  · exact ⟨hx, by simpa [mapErase, hx] using h⟩

/-- The behavior of `shrink_next_id`, all in one statement: the resulting
free set shrinks, `next_id` does not grow, stays at or above `reserved`,
trailing compactness holds afterwards, free lids stay below the new
`next_id`, and non-free lids below the old `next_id` stay below the new
one.  The fuel hypothesis is satisfied by `shrinkNextId`. -/
theorem shrinkLoop_spec (r : Nat) :
    ∀ (fuel : Nat) (next : Nat) (free : Finset Nat), next - r ≤ fuel →
      (shrinkLoop fuel free next r).1 ⊆ free ∧
      (shrinkLoop fuel free next r).2 ≤ next ∧
      (r ≤ next → r ≤ (shrinkLoop fuel free next r).2) ∧
      (r ≤ next → ((shrinkLoop fuel free next r).2 = r ∨
        ((shrinkLoop fuel free next r).2 - 1) ∉ (shrinkLoop fuel free next r).1)) ∧
      ((∀ x ∈ free, x < next) →
        ∀ x ∈ (shrinkLoop fuel free next r).1, x < (shrinkLoop fuel free next r).2) ∧
      (∀ x, x ∉ free → x < next → x < (shrinkLoop fuel free next r).2) := by
  intro fuel
  induction fuel with
  | zero =>
      intro next free hle
      have hnr : next ≤ r := by omega
      simp only [shrinkLoop]
      refine ⟨Finset.Subset.refl _, Nat.le_refl _, fun h => h.trans (Nat.le_refl _), ?_,
        fun h => h, fun x _ hx => hx⟩
      intro hrn
      exact Or.inl (Nat.le_antisymm hnr hrn)
  | succ fuel ih =>
      intro next free hle
      simp only [shrinkLoop]
      by_cases hg : r < next ∧ (next - 1) ∈ free
      · rw [if_pos hg]
        have hfuel : (next - 1) - r ≤ fuel := by omega
        obtain ⟨h1, h2, h3, h4, h5, h6⟩ := ih (next - 1) (free.erase (next - 1)) hfuel
        refine ⟨h1.trans (Finset.erase_subset _ _), h2.trans (by omega), ?_, ?_, ?_, ?_⟩
        · intro _
          exact h3 (by omega)
        · intro _
          exact h4 (by omega)
        · intro hub x hx
          refine h5 (fun y hy => ?_) x hx
          have hy2 := Finset.mem_erase.mp hy
          have := hub y hy2.2
          omega
        · intro x hx hxn
          have hxe : x ∉ free.erase (next - 1) := fun hc => hx ((Finset.erase_subset _ _) hc)
          have hxne : x ≠ next - 1 := fun hc => hx (hc ▸ hg.2)
          exact h6 x hxe (by omega)
      · rw [if_neg hg]
        refine ⟨Finset.Subset.refl _, Nat.le_refl _, fun h => h, ?_, fun h => h,
          fun x _ hx => hx⟩
        intro hrn
        rcases Nat.eq_or_lt_of_le hrn with heq | hlt
        · exact Or.inl heq.symm
        · exact Or.inr (fun hc => hg ⟨hlt, hc⟩)

theorem shrinkNextId_spec (r : Nat) (free : Finset Nat) (next : Nat) :
    (shrinkNextId r free next).1 ⊆ free ∧
    (shrinkNextId r free next).2 ≤ next ∧
    (r ≤ next → r ≤ (shrinkNextId r free next).2) ∧
    (r ≤ next → ((shrinkNextId r free next).2 = r ∨
      ((shrinkNextId r free next).2 - 1) ∉ (shrinkNextId r free next).1)) ∧
    ((∀ x ∈ free, x < next) →
      ∀ x ∈ (shrinkNextId r free next).1, x < (shrinkNextId r free next).2) ∧
    (∀ x, x ∉ free → x < next → x < (shrinkNextId r free next).2) :=
  shrinkLoop_spec r next next free (Nat.sub_le _ _)

/-! ## Preservation of the inductive invariant -/

theorem inv_alloc {s : IdManager} (h : Inv s) (label : Nat) :
    Inv (s.alloc_id label).2 := by
  unfold IdManager.alloc_id
  by_cases hm : (s.id_map label).isSome
  · rw [if_pos hm]
    exact h
  · rw [if_neg hm]
    by_cases hne : s.free_ids.Nonempty
    · rw [dif_pos hne]
      set m := s.free_ids.min' hne with hmdef
      have hmem : m ∈ s.free_ids := Finset.min'_mem _ _
      have m_lb : s.reserved_id ≤ m := h.free_lb m hmem
      have m_ub : m < s.next_id := h.free_ub m hmem
      have m_len : m < s.ids.length := Nat.lt_of_lt_of_le m_ub h.next_le_len
      refine ⟨?_, ?_, ?_, ?_, ?_, ?_, ?_, ?_, ?_⟩
      · intro f hf
        exact h.free_lb f ((Finset.erase_subset _ _) hf)
      · intro f hf
        exact h.free_ub f ((Finset.erase_subset _ _) hf)
      · intro f hf
        obtain ⟨hfne, hfmem⟩ := Finset.mem_erase.mp hf
        rw [setEntry_getD_ne _ (fun hc => hfne hc.symm) _]
        exact h.free_sentinel f hfmem
      · intro l lid hl
        rcases mapInsert_eq_some hl with ⟨hlk, hlv⟩ | ⟨hlk, hlv⟩
        · subst hlk; subst hlv
          rw [setEntry_getD_self _ m_len _]
        · have hne2 : lid ≠ m := fun hc => h.map_not_free l lid hlv (hc ▸ hmem)
          rw [setEntry_getD_ne _ (fun hc => hne2 hc.symm) _]
          exact h.map_agree l lid hlv
      · intro l lid hl
        rcases mapInsert_eq_some hl with ⟨hlk, hlv⟩ | ⟨hlk, hlv⟩
        · subst hlv; exact m_ub
        · exact h.map_lt l lid hlv
      · intro l lid hl
        rcases mapInsert_eq_some hl with ⟨hlk, hlv⟩ | ⟨hlk, hlv⟩
        · subst hlv; exact m_lb
        · exact h.map_ge l lid hlv
      · intro l lid hl hcon
        have hsub := (Finset.erase_subset m s.free_ids) hcon
        rcases mapInsert_eq_some hl with ⟨hlk, hlv⟩ | ⟨hlk, hlv⟩
        · subst hlv
          exact (Finset.mem_erase.mp hcon).1 rfl
        · exact h.map_not_free l lid hlv hsub
      · exact h.res_le_next
      · rw [setEntry_length]; exact h.next_le_len
    · rw [dif_neg hne]
      have hempty : s.free_ids = ∅ := Finset.not_nonempty_iff_eq_empty.mp hne
      by_cases hlen : s.next_id < s.ids.length
      · rw [if_pos hlen]
        refine ⟨?_, ?_, ?_, ?_, ?_, ?_, ?_, ?_, ?_⟩
        · intro f hf; rw [hempty] at hf; exact absurd hf (Finset.not_mem_empty f)
        · intro f hf; rw [hempty] at hf; exact absurd hf (Finset.not_mem_empty f)
        · intro f hf; rw [hempty] at hf; exact absurd hf (Finset.not_mem_empty f)
        · intro l lid hl
          rcases mapInsert_eq_some hl with ⟨hlk, hlv⟩ | ⟨hlk, hlv⟩
          · subst hlk; subst hlv
            rw [setEntry_getD_self _ hlen _]
          · have hne2 : lid ≠ s.next_id := Nat.ne_of_lt (h.map_lt l lid hlv)
            rw [setEntry_getD_ne _ (fun hc => hne2 hc.symm) _]
            exact h.map_agree l lid hlv
        · intro l lid hl
          rcases mapInsert_eq_some hl with ⟨hlk, hlv⟩ | ⟨hlk, hlv⟩
          · subst hlv; exact Nat.lt_succ_self _
          · exact Nat.lt_succ_of_lt (h.map_lt l lid hlv)
        · intro l lid hl
          rcases mapInsert_eq_some hl with ⟨hlk, hlv⟩ | ⟨hlk, hlv⟩
          · subst hlv; exact h.res_le_next
          · exact h.map_ge l lid hlv
        · intro l lid hl hcon
          rw [hempty] at hcon; exact absurd hcon (Finset.not_mem_empty lid)
        · exact Nat.le_succ_of_le h.res_le_next
        · rw [setEntry_length]; exact hlen
      · rw [if_neg hlen]
        exact h

theorem inv_free_id {s : IdManager} (h : Inv s) (label : Nat) :
    Inv (s.free_id label) := by
  unfold IdManager.free_id
  cases hmap : s.id_map label with
  | none => exact h
  | some lid =>
      simp only []
      have hlt : lid < s.next_id := h.map_lt label lid hmap
      have hge : s.reserved_id ≤ lid := h.map_ge label lid hmap
      have hagree : (s.ids.getD lid default).label = label := h.map_agree label lid hmap
      have hnfree : lid ∉ s.free_ids := h.map_not_free label lid hmap
      have hlen : lid < s.ids.length := Nat.lt_of_lt_of_le hlt h.next_le_len
      rw [if_neg (by omega)]
      obtain ⟨hsub, hle, hrle, hp3, hub, hnm⟩ :=
        shrinkNextId_spec s.reserved_id (insert lid s.free_ids) s.next_id
      have hins_lt : ∀ x ∈ insert lid s.free_ids, x < s.next_id := by
        intro x hx
        rcases Finset.mem_insert.mp hx with hx | hx
        · omega
        · exact h.free_ub x hx
      refine ⟨?_, ?_, ?_, ?_, ?_, ?_, ?_, ?_, ?_⟩
      · intro f hf
        rcases Finset.mem_insert.mp (hsub hf) with hf2 | hf2
        · exact hf2 ▸ hge
        · exact h.free_lb f hf2
      · intro f hf
        exact hub hins_lt f hf
      · intro f hf
        by_cases hfl : f = lid
        · subst hfl
          rw [setEntry_getD_self _ hlen _]
        · rw [setEntry_getD_ne _ (fun hc => hfl hc.symm) _]
          rcases Finset.mem_insert.mp (hsub hf) with hf2 | hf2
          · exact absurd hf2 hfl
          · exact h.free_sentinel f hf2
      · intro l lid2 hl
        obtain ⟨hlk, hlv⟩ := mapErase_eq_some hl
        have hne2 : lid2 ≠ lid := by
          intro hc
          subst hc
          exact hlk ((h.map_agree l lid2 hlv) ▸ hagree ▸ rfl)
        rw [setEntry_getD_ne _ (fun hc => hne2 hc.symm) _]
        exact h.map_agree l lid2 hlv
      · intro l lid2 hl
        obtain ⟨hlk, hlv⟩ := mapErase_eq_some hl
        have hne2 : lid2 ≠ lid := by
          intro hc
          subst hc
          exact hlk ((h.map_agree l lid2 hlv) ▸ hagree ▸ rfl)
        refine hnm lid2 ?_ (h.map_lt l lid2 hlv)
        intro hc
        rcases Finset.mem_insert.mp hc with hc2 | hc2
        · exact hne2 hc2
        · exact h.map_not_free l lid2 hlv hc2
      · intro l lid2 hl
        exact h.map_ge l lid2 (mapErase_eq_some hl).2
      · intro l lid2 hl hcon
        obtain ⟨hlk, hlv⟩ := mapErase_eq_some hl
        have hne2 : lid2 ≠ lid := by
          intro hc
          subst hc
          exact hlk ((h.map_agree l lid2 hlv) ▸ hagree ▸ rfl)
        rcases Finset.mem_insert.mp (hsub hcon) with hc2 | hc2
        · exact hne2 hc2
        · exact h.map_not_free l lid2 hlv hc2
      · exact hrle h.res_le_next
      · rw [setEntry_length]
        exact hle.trans h.next_le_len

theorem inv_free_local_id {s : IdManager} (h : Inv s) {lid : Nat}
    (hge : s.reserved_id ≤ lid) (hlt : lid < s.next_id) :
    Inv (s.free_local_id lid) := by
  unfold IdManager.free_local_id
  have hlen : lid < s.ids.length := Nat.lt_of_lt_of_le hlt h.next_le_len
  rw [if_neg (by omega)]
  obtain ⟨hsub, hle, hrle, hp3, hub, hnm⟩ :=
    shrinkNextId_spec s.reserved_id (insert lid s.free_ids) s.next_id
  have hins_lt : ∀ x ∈ insert lid s.free_ids, x < s.next_id := by
    intro x hx
    rcases Finset.mem_insert.mp hx with hx | hx
    · omega
    · exact h.free_ub x hx
  refine ⟨?_, ?_, ?_, ?_, ?_, ?_, ?_, ?_, ?_⟩
  · intro f hf
    rcases Finset.mem_insert.mp (hsub hf) with hf2 | hf2
    · exact hf2 ▸ hge
    · exact h.free_lb f hf2
  · intro f hf
    exact hub hins_lt f hf
  · intro f hf
    by_cases hfl : f = lid
    · subst hfl
      rw [setEntry_getD_self _ hlen _]
    · rw [setEntry_getD_ne _ (fun hc => hfl hc.symm) _]
      rcases Finset.mem_insert.mp (hsub hf) with hf2 | hf2
      · exact absurd hf2 hfl
      · exact h.free_sentinel f hf2
  · intro l lid2 hl
    obtain ⟨hlk, hlv⟩ := mapErase_eq_some hl
    have hne2 : lid2 ≠ lid := by
      intro hc
      subst hc
      exact hlk (h.map_agree l lid2 hlv).symm
    rw [setEntry_getD_ne _ (fun hc => hne2 hc.symm) _]
    exact h.map_agree l lid2 hlv
  · intro l lid2 hl
    obtain ⟨hlk, hlv⟩ := mapErase_eq_some hl
    have hne2 : lid2 ≠ lid := by
      intro hc
      subst hc
      exact hlk (h.map_agree l lid2 hlv).symm
    refine hnm lid2 ?_ (h.map_lt l lid2 hlv)
    intro hc
    rcases Finset.mem_insert.mp hc with hc2 | hc2
    · exact hne2 hc2
    · exact h.map_not_free l lid2 hlv hc2
  · intro l lid2 hl
    exact h.map_ge l lid2 (mapErase_eq_some hl).2
  · intro l lid2 hl hcon
    obtain ⟨hlk, hlv⟩ := mapErase_eq_some hl
    have hne2 : lid2 ≠ lid := by
      intro hc
      subst hc
      exact hlk (h.map_agree l lid2 hlv).symm
    rcases Finset.mem_insert.mp (hsub hcon) with hc2 | hc2
    · exact hne2 hc2
    · exact h.map_not_free l lid2 hlv hc2
  · exact hrle h.res_le_next
  · rw [setEntry_length]
    exact hle.trans h.next_le_len

theorem inv_set_local_id_status {s : IdManager} (h : Inv s) (lid status : Nat) :
    Inv (s.set_local_id_status lid status) := by
  unfold IdManager.set_local_id_status
  by_cases hlen : s.ids.length ≤ lid
  · rw [if_pos hlen]; exact h
  · rw [if_neg hlen]
    have hlab : ∀ x, ((setEntry s.ids lid
        { s.ids.getD lid default with status := status }).getD x default).label
        = (s.ids.getD x default).label := by
      intro x
      by_cases hx : x = lid
      · subst hx
        rw [setEntry_getD_self _ (by omega) _]
      · rw [setEntry_getD_ne _ (fun hc => hx hc.symm) _]
    refine ⟨h.free_lb, h.free_ub, ?_, ?_, h.map_lt, h.map_ge, h.map_not_free,
      h.res_le_next, ?_⟩
    · intro f hf
      rw [hlab]
      exact h.free_sentinel f hf
    · intro l lid2 hl
      rw [hlab]
      exact h.map_agree l lid2 hl
    · rw [setEntry_length]
      exact h.next_le_len

theorem inv_set_label_status {s : IdManager} (h : Inv s) (label status : Nat) :
    Inv (s.set_label_status label status) := by
  unfold IdManager.set_label_status
  cases s.id_map label with
  | none => exact h
  | some lid => exact inv_set_local_id_status h lid status

theorem inv_applyOp {s : IdManager} {op : IdOp} (h : Inv s)
    (hg : goodOp s op = true) : Inv (s.applyOp op) := by
  cases op with
  | alloc l => exact inv_alloc h l
  | freeId l => exact inv_free_id h l
  | freeLocalId lid =>
      simp only [goodOp, Bool.and_eq_true, decide_eq_true_eq] at hg
      exact inv_free_local_id h hg.1 hg.2
  | setReservedId lid l => simp [goodOp] at hg
  | setLabelStatus l st => exact inv_set_label_status h l st
  | setLocalIdStatus lid st => exact inv_set_local_id_status h lid st

theorem inv_applyOps : ∀ (ops : List IdOp) (s : IdManager), Inv s →
    goodOps s ops = true → Inv (s.applyOps ops) := by
  intro ops
  induction ops with
  | nil => intro s h _; exact h
  | cons op rest ih =>
      intro s h hg
      simp only [goodOps, Bool.and_eq_true] at hg
      exact ih (s.applyOp op) (inv_applyOp h hg.1) hg.2

/-- What the pool scan of `IdManager::initialize` builds: free-set members
are scanned indices holding the sentinel, map entries are scanned indices
holding their (non-sentinel) key. -/
theorem scanPool_spec (ids : List LabelEntity) (lo hi : Nat) :
    ∀ (idx : List Nat) (acc : Finset Nat × (Nat → Option Nat)),
      (∀ i ∈ idx, lo ≤ i ∧ i < hi) →
      (∀ x ∈ acc.1, (lo ≤ x ∧ x < hi) ∧ (ids.getD x default).label = kInvalidId) →
      (∀ l lid, acc.2 l = some lid → (lo ≤ lid ∧ lid < hi) ∧
        (ids.getD lid default).label = l ∧ l ≠ kInvalidId) →
      (∀ x ∈ (scanPool ids idx acc).1, (lo ≤ x ∧ x < hi) ∧
        (ids.getD x default).label = kInvalidId) ∧
      (∀ l lid, (scanPool ids idx acc).2 l = some lid → (lo ≤ lid ∧ lid < hi) ∧
        (ids.getD lid default).label = l ∧ l ≠ kInvalidId) := by
  intro idx
  induction idx with
  | nil =>
      intro acc _ hfree hmap
      exact ⟨hfree, hmap⟩
  | cons i rest ih =>
      intro acc hidx hfree hmap
      have hi2 := hidx i (List.mem_cons_self i rest)
      have hrest : ∀ j ∈ rest, lo ≤ j ∧ j < hi :=
        fun j hj => hidx j (List.mem_cons_of_mem i hj)
      simp only [scanPool]
      by_cases hlab : (ids.getD i default).label = kInvalidId
      · rw [if_pos hlab]
        refine ih _ hrest ?_ hmap
        intro x hx
        rcases Finset.mem_insert.mp hx with hx | hx
        · subst hx; exact ⟨hi2, hlab⟩
        · exact hfree x hx
      · rw [if_neg hlab]
        refine ih _ hrest hfree ?_
        intro l lid hl
        rcases mapInsert_eq_some hl with ⟨hlk, hlv⟩ | ⟨hlk, hlv⟩
        · subst hlk; subst hlv
          exact ⟨hi2, rfl, hlab⟩
        · exact hmap l lid hlv

/-- The state built by a first (successful) `initialize` from an empty
manager satisfies the inductive invariant. -/
theorem inv_scan_state (ids1 : List LabelEntity) (r n : Nat) (hrn : r ≤ n)
    (hlen : n ≤ ids1.length) :
    Inv { free_ids := (scanPool ids1 (List.range' r (n - r)) (∅, fun _ => none)).1,
          ids := ids1, next_id := n, reserved_id := r,
          id_map := (scanPool ids1 (List.range' r (n - r)) (∅, fun _ => none)).2,
          inited := true } := by
  have hidx : ∀ i ∈ List.range' r (n - r), r ≤ i ∧ i < n := by
    intro i hi
    have := List.mem_range'_1.mp hi
    omega
  obtain ⟨hfree, hmap⟩ := scanPool_spec ids1 r n (List.range' r (n - r))
    (∅, fun _ => none) hidx
    (fun x hx => absurd hx (Finset.not_mem_empty x))
    (fun l lid hl => by exact absurd hl (by simp))
  refine ⟨?_, ?_, ?_, ?_, ?_, ?_, ?_, hrn, hlen⟩
  · intro f hf; exact (hfree f hf).1.1
  · intro f hf; exact (hfree f hf).1.2
  · intro f hf; exact (hfree f hf).2
  · intro l lid hl; exact (hmap l lid hl).2.1
  · intro l lid hl; exact (hmap l lid hl).1.2
  · intro l lid hl; exact (hmap l lid hl).1.1
  · intro l lid hl hcon
    exact (hmap l lid hl).2.2 ((hmap l lid hl).2.1 ▸ (hfree lid hcon).2)

theorem inv_initializeM (pool : List LabelEntity) (r n : Nat) (hrn : r ≤ n) :
    Inv (IdManager.initializeM {} pool r n).2 := by
  have hlen : n ≤ (if pool.length < n then
      pool ++ List.replicate (n + kDefaultGrowth - pool.length) default
      else pool).length := by
    split
    · simp only [List.length_append, List.length_replicate]
      unfold kDefaultGrowth
      omega
    · omega
  unfold IdManager.initializeM
  rw [if_neg (by simp), if_neg (by omega)]
  exact inv_scan_state _ r n hrn hlen

/-! ## Trailing compactness is preserved by every public mutation -/

theorem p3_applyOp {s : IdManager} (op : IdOp) (h1 : s.reserved_id ≤ s.next_id)
    (h2 : P3 s) :
    (s.applyOp op).reserved_id ≤ (s.applyOp op).next_id ∧ P3 (s.applyOp op) := by
  cases op with
  | alloc label =>
      simp only [IdManager.applyOp]
      unfold IdManager.alloc_id
      by_cases hm : (s.id_map label).isSome
      · rw [if_pos hm]; exact ⟨h1, h2⟩
      · rw [if_neg hm]
        by_cases hne : s.free_ids.Nonempty
        · rw [dif_pos hne]
          refine ⟨h1, ?_⟩
          rcases h2 with h2 | h2
          · exact Or.inl h2
          · exact Or.inr (fun hc => h2 ((Finset.erase_subset _ _) hc))
        · rw [dif_neg hne]
          have hempty : s.free_ids = ∅ := Finset.not_nonempty_iff_eq_empty.mp hne
          by_cases hlt : s.next_id < s.ids.length
          · rw [if_pos hlt]
            refine ⟨Nat.le_succ_of_le h1, Or.inr ?_⟩
            show s.next_id + 1 - 1 ∉ s.free_ids
            rw [hempty]
            exact Finset.not_mem_empty _
          · rw [if_neg hlt]; exact ⟨h1, h2⟩
  | freeId label =>
      simp only [IdManager.applyOp]
      unfold IdManager.free_id
      cases hmap : s.id_map label with
      | none => exact ⟨h1, h2⟩
      | some lid =>
          simp only []
          by_cases hlen : s.ids.length ≤ lid
          · rw [if_pos hlen]; exact ⟨h1, h2⟩
          · rw [if_neg hlen]
            obtain ⟨_, _, hrle, hp3, _, _⟩ :=
              shrinkNextId_spec s.reserved_id (insert lid s.free_ids) s.next_id
            exact ⟨hrle h1, hp3 h1⟩
  | freeLocalId lid =>
      simp only [IdManager.applyOp]
      unfold IdManager.free_local_id
      by_cases hlen : s.ids.length ≤ lid
      · rw [if_pos hlen]; exact ⟨h1, h2⟩
      · rw [if_neg hlen]
        obtain ⟨_, _, hrle, hp3, _, _⟩ :=
          shrinkNextId_spec s.reserved_id (insert lid s.free_ids) s.next_id
        exact ⟨hrle h1, hp3 h1⟩
  | setReservedId lid label => exact ⟨h1, h2⟩
  | setLabelStatus label st =>
      simp only [IdManager.applyOp]
      unfold IdManager.set_label_status IdManager.set_local_id_status
      cases s.id_map label with
      | none => exact ⟨h1, h2⟩
      | some lid =>
          simp only []
          split
          · exact ⟨h1, h2⟩
          · exact ⟨h1, h2⟩
  | setLocalIdStatus lid st =>
      simp only [IdManager.applyOp]
      unfold IdManager.set_local_id_status
      split
      · exact ⟨h1, h2⟩
      · exact ⟨h1, h2⟩

theorem p3_applyOps : ∀ (ops : List IdOp) (s : IdManager),
    s.reserved_id ≤ s.next_id → P3 s →
    (s.applyOps ops).reserved_id ≤ (s.applyOps ops).next_id ∧ P3 (s.applyOps ops) := by
  intro ops
  induction ops with
  | nil => intro s h1 h2; exact ⟨h1, h2⟩
  | cons op rest ih =>
      intro s h1 h2
      obtain ⟨h1s, h2s⟩ := p3_applyOp op h1 h2
      exact ih (s.applyOp op) h1s h2s

/-! ## The claims -/

/-- C1: the round-trip property fails on the code.  On a fresh store
(`reserved = 0`, `batch_size = 2`, `max_elements = 16`,
`vector_byte_size = 4`), `add(1, label 100, 4 bytes)` succeeds with lid 0 and
`get_id(100)` returns that lid, but `get_vector_by_label(100)` fails with
`OutOfRange` instead of returning the bytes: `VectorBatch::init` never
stores `vector_byte_size`, so every span `at` returns is empty. -/
theorem C1_roundtrip_code_bug :
    (((MemStore.init 4 ⟨0, 2, 16⟩).2.add_vector 1 100 [1, 2, 3, 4]).1 = .ok 0) ∧
    ((((MemStore.init 4 ⟨0, 2, 16⟩).2.add_vector 1 100 [1, 2, 3, 4]).2.get_vector_by_label
      100) = some (.error .outOfRange)) ∧
    ((((MemStore.init 4 ⟨0, 2, 16⟩).2.add_vector 1 100 [1, 2, 3, 4]).2.get_id 100)
      = .ok 0) := by
  refine ⟨by decide, by decide, by decide⟩

/-- C2: the batch contract fails on the code.  After `init(64, 4)` the slot 0
is inside the capacity, yet `at(0)` returns the empty span (it should be a
64-byte window): `init` forgets to store `_vector_byte_size`. -/
theorem C2_batch_at_code_bug :
    0 < (VectorBatch.init {} 64 4).capacity ∧
    (VectorBatch.init {} 64 4).at 0 = [] := by
  refine ⟨by decide, by decide⟩

/-- C3 counterexample: the free-set domain invariant P2 is violated by a
public call.  After `initialize([], 0, 1)` (the `MemStore::init` state) the
pool has 257 slots; `free_local_id(5)` is accepted (5 is inside the pool),
inserts 5 into the free set and then compaction shrinks `next_id` to 0, so
lid 5 sits in the free set outside `[reserved_id, next_id)`. -/
theorem C3_counterexample :
    ¬ P2 ((IdManager.initializeM {} [] 0 1).2.free_local_id 5) := by decide

/-- C3 amended: the free-set domain invariant holds after every sequence of
public operations on a freshly initialized manager provided every
`free_local_id` call receives a lid inside the active range
`[reserved_id, next_id)` at call time and the `set_reserved_id` back door
(which corrupts the label-keyed map, see C6) is not used. -/
theorem C3_free_set_domain_amended (pool : List LabelEntity) (r n : Nat)
    (ops : List IdOp) (hrn : r ≤ n)
    (hgood : goodOps (IdManager.initializeM {} pool r n).2 ops = true) :
    P2 ((IdManager.initializeM {} pool r n).2.applyOps ops) :=
  (inv_applyOps ops _ (inv_initializeM pool r n hrn) hgood).p2

theorem C3_witness :
    (0 : Nat) ≤ 1 ∧
    goodOps (IdManager.initializeM {} [] 0 1).2 [IdOp.alloc 7, IdOp.freeId 7] = true ∧
    P2 ((IdManager.initializeM {} [] 0 1).2.applyOps [IdOp.alloc 7, IdOp.freeId 7]) :=
  ⟨by decide, by decide,
    C3_free_set_domain_amended [] 0 1 [IdOp.alloc 7, IdOp.freeId 7] (by decide) (by decide)⟩

/-- C4 counterexample: trailing compactness does not hold right after
`MemStore::init`: the store initializes its manager with an empty pool,
`reserved` and `reserved + 1`, whose scan puts `reserved` into the free
set, so `next_id = reserved + 1 ≠ reserved_id` while `next_id - 1` is free. -/
theorem C4_counterexample :
    ¬ P3 (MemStore.init 4 ⟨0, 2, 16⟩).2.id_manager := by decide

/-- C4 amended: trailing compactness is preserved by every public mutation
(`alloc_id`, `free_id`, `free_local_id`, `set_reserved_id` and the status
setters, with any arguments) from any state that satisfies it together
with `reserved_id ≤ next_id`; the freeing operations even re-establish it.
It can fail to hold right after initialization (see the counterexample). -/
theorem C4_trailing_compactness_amended (s : IdManager) (ops : List IdOp)
    (h1 : s.reserved_id ≤ s.next_id) (h2 : P3 s) : P3 (s.applyOps ops) :=
  (p3_applyOps ops s h1 h2).2

theorem C4_witness :
    ((IdManager.initializeM {} [] 0 0).2.reserved_id ≤
      (IdManager.initializeM {} [] 0 0).2.next_id) ∧
    P3 (IdManager.initializeM {} [] 0 0).2 ∧
    P3 ((IdManager.initializeM {} [] 0 0).2.applyOps
      [IdOp.alloc 3, IdOp.freeLocalId 0]) :=
  ⟨by decide, by decide,
    C4_trailing_compactness_amended _ [IdOp.alloc 3, IdOp.freeLocalId 0]
      (by decide) (by decide)⟩

/-- C5: the allocation contract of `alloc_id` on an initialized manager:
fails with `AlreadyExists` iff the label is mapped; otherwise a non-empty
free set yields its smallest element (removed from the set); otherwise
`next_id` is returned and incremented when below the pool capacity; and
`ResourceExhausted` is returned when the pool is full. -/
theorem C5_alloc_contract (s : IdManager) (label : Nat) (hinit : s.inited = true) :
    ((s.alloc_id label).1 = .error .alreadyExists ↔ (s.id_map label).isSome = true) ∧
    ((s.id_map label).isSome = false →
      (∀ h : s.free_ids.Nonempty,
        (s.alloc_id label).1 = .ok (s.free_ids.min' h) ∧
        (s.alloc_id label).2.free_ids = s.free_ids.erase (s.free_ids.min' h)) ∧
      (s.free_ids = ∅ → s.next_id < s.ids.length →
        (s.alloc_id label).1 = .ok s.next_id ∧
        (s.alloc_id label).2.next_id = s.next_id + 1) ∧
      (s.free_ids = ∅ → s.ids.length ≤ s.next_id →
        (s.alloc_id label).1 = .error .resourceExhausted)) := by
  unfold IdManager.alloc_id
  by_cases hm : (s.id_map label).isSome = true
  · rw [if_pos hm]
    refine ⟨⟨fun _ => hm, fun _ => rfl⟩, ?_⟩
    intro habs
    rw [hm] at habs
    cases habs
  · rw [if_neg hm]
    constructor
    · constructor
      · intro habs
        by_cases hne : s.free_ids.Nonempty
        · rw [dif_pos hne] at habs
          cases habs
        · rw [dif_neg hne] at habs
          by_cases hlt : s.next_id < s.ids.length
          · rw [if_pos hlt] at habs
            cases habs
          · rw [if_neg hlt] at habs
            cases habs
      · intro habs
        exact absurd habs hm
    · intro _
      refine ⟨?_, ?_, ?_⟩
      · intro h
        rw [dif_pos h]
        exact ⟨rfl, rfl⟩
      · intro hemp hlt
        have hne : ¬s.free_ids.Nonempty := by
          rw [hemp]
          exact Finset.not_nonempty_empty
        rw [dif_neg hne, if_pos hlt]
        exact ⟨rfl, rfl⟩
      · intro hemp hge
        have hne : ¬s.free_ids.Nonempty := by
          rw [hemp]
          exact Finset.not_nonempty_empty
        rw [dif_neg hne, if_neg (by omega)]

theorem C5_witness :
    ((IdManager.initializeM {} [] 0 1).2.inited = true) ∧
    (((IdManager.initializeM {} [] 0 1).2.alloc_id 9).1 = .error .alreadyExists ↔
      ((IdManager.initializeM {} [] 0 1).2.id_map 9).isSome = true) :=
  ⟨by decide, (C5_alloc_contract (IdManager.initializeM {} [] 0 1).2 9 (by decide)).1⟩

/-- C6: `set_reserved_id(3, 100)` on a manager with `reserved_id = 5` (so
the `KCHECK(lid < reserved_id)` passes) does not establish
`label_map[100] = 3`: the body runs `_id_map[lid] = label`, installing the
entry keyed by the lid instead, so label 100 stays unmapped while key 3 maps
to 100. -/
theorem C6_set_reserved_id_code_bug :
    (3 < (IdManager.initializeM {} [] 5 6).2.reserved_id) ∧
    (((IdManager.initializeM {} [] 5 6).2.set_reserved_id 3 100).id_map 100 = none) ∧
    (((IdManager.initializeM {} [] 5 6).2.set_reserved_id 3 100).id_map 3 = some 100) := by
  refine ⟨by decide, by decide, by decide⟩

/-- C7 counterexample: on a fresh store no batch is materialized, and
`get_vector_by_id(0)` evaluates `_vector_batches[0]` — an out-of-bounds
access on the batch sequence (modelled as `none`) instead of an
`OutOfRange` failure. -/
theorem C7_counterexample :
    (MemStore.init 4 ⟨0, 2, 16⟩).2.get_vector_by_id 0 = none := by decide

/-- C7 amended: `get_vector_by_id` accesses the batch sequence in bounds
iff `lid / batch_size` is below the number of materialized batches; in
bounds it returns the slot's span when non-empty and fails with
`OutOfRange` when the span is empty; for larger lids it indexes the batch
vector out of bounds (undefined behavior) instead of failing. -/
theorem C7_get_vector_by_id_amended (s : MemStore) (lid : Nat) :
    (s.get_vector_by_id lid = none ↔
      s.vector_batches.length ≤ lid / s.option.batch_size) ∧
    (∀ b, s.vector_batches.get? (lid / s.option.batch_size) = some b →
      s.get_vector_by_id lid =
        if b.at (lid % s.option.batch_size) = [] then some (.error .outOfRange)
        else some (.ok (b.at (lid % s.option.batch_size)))) := by
  cases hb : s.vector_batches.get? (lid / s.option.batch_size) with
  | none =>
      have hres : s.get_vector_by_id lid = none := by
        unfold MemStore.get_vector_by_id
        rw [hb]
      refine ⟨⟨fun _ => List.get?_eq_none.mp hb, fun _ => hres⟩, ?_⟩
      intro b hb2
      cases hb2
  | some b =>
      have hres : s.get_vector_by_id lid =
          if b.at (lid % s.option.batch_size) = [] then some (.error .outOfRange)
          else some (.ok (b.at (lid % s.option.batch_size))) := by
        unfold MemStore.get_vector_by_id
        rw [hb]
      constructor
      · constructor
        · intro habs
          rw [hres] at habs
          split at habs
          · cases habs
          · cases habs
        · intro hlen
          rw [List.get?_eq_none.mpr hlen] at hb
          cases hb
      · intro b2 hb2
        cases hb2
        exact hres

def c7Store : MemStore :=
  { vector_byte_size := 4, vector_batches := [VectorBatch.init {} 4 2],
    id_manager := {}, option := ⟨0, 2, 16⟩, snapshot_id := 0 }

theorem C7_witness :
    (c7Store.get_vector_by_id 0 = none ↔
      c7Store.vector_batches.length ≤ 0 / c7Store.option.batch_size) ∧
    (∀ b, c7Store.vector_batches.get? (0 / c7Store.option.batch_size) = some b →
      c7Store.get_vector_by_id 0 =
        if b.at (0 % c7Store.option.batch_size) = [] then some (.error .outOfRange)
        else some (.ok (b.at (0 % c7Store.option.batch_size)))) :=
  C7_get_vector_by_id_amended c7Store 0

/-- C8: on a first call (the manager not yet initialized), `initialize`
fails with `InvalidArgument` iff `reserved_id > next_id`, and succeeds for
every other argument.  The `turbo::Status`-returning body is modelled from
the spec (see `IdManager.initializeM`). -/
theorem C8_initialize_check (s : IdManager) (pool : List LabelEntity) (r n : Nat)
    (hs : s.inited = false) :
    ((IdManager.initializeM s pool r n).1 = .error .invalidArgument ↔ n < r) ∧
    (r ≤ n → (IdManager.initializeM s pool r n).1 = .ok ()) := by
  unfold IdManager.initializeM
  rw [if_neg (by simp [hs])]
  by_cases hrn : n < r
  · rw [if_pos hrn]
    exact ⟨⟨fun _ => hrn, fun _ => rfl⟩, fun hc => absurd hrn (by omega)⟩
  · rw [if_neg hrn]
    refine ⟨⟨fun hc => ?_, fun hc => absurd hc hrn⟩, fun _ => rfl⟩
    cases hc

theorem C8_witness :
    (({} : IdManager).inited = false) ∧
    ((IdManager.initializeM ({} : IdManager) [] 3 1).1 = .error .invalidArgument ↔
      (1 : Nat) < 3) ∧
    ((0 : Nat) ≤ 5 → (IdManager.initializeM ({} : IdManager) [] 0 5).1 = .ok ()) :=
  ⟨by decide, (C8_initialize_check {} [] 3 1 (by decide)).1,
    (C8_initialize_check {} [] 0 5 (by decide)).2⟩

def c9Registry : MetricRegistry :=
  (MetricRegistry.register_operator {}
    { supports := true, metric := 2, data_type := 3, simd_level := 0 } false).2

/-- C9: the registry lookup error kind is wrong on the simd axis.  With
only `(metric 2 = L2, data type 3 = float, simd 0 = none)` registered:
a lookup whose unpopulated axis is the metric or the data type fails with
`Unavailable`, but a lookup whose unpopulated axis is the simd level —
`get_metric_operator(2, 3, 1)` — fails with kind `AlreadyExists` (whose
diagnostic text in the source even says "unavailable simd level"), not
`NotFound` or `Unavailable`. -/
theorem C9_registry_lookup_code_bug :
    ((MetricRegistry.register_operator {}
      { supports := true, metric := 2, data_type := 3, simd_level := 0 } false).1
        = .ok ()) ∧
    (c9Registry.get_metric_operator 3 3 0 = .error .unavailable) ∧
    (c9Registry.get_metric_operator 2 1 0 = .error .unavailable) ∧
    (c9Registry.get_metric_operator 2 3 1 = .error .alreadyExists) := by
  refine ⟨by decide, by decide, by decide, by decide⟩

/-- C10: the sentinel `2^64 - 1` is accepted as an ordinary label.  On an
initialized manager where it is unmapped and a lid is available,
`alloc_id(kInvalidId)` succeeds with some lid; afterwards the map contains
`kInvalidId -> lid` while the pool slot's label field equals the sentinel,
and the pool scan of `initialize` (here `scanPool` run over that slot)
classifies the slot as free. -/
theorem C10_sentinel_label_alloc (s : IdManager) (hinit : s.inited = true)
    (hnm : s.id_map kInvalidId = none)
    (havail : s.free_ids.Nonempty ∨ s.next_id < s.ids.length) :
    ∃ lid, (s.alloc_id kInvalidId).1 = .ok lid ∧
      (s.alloc_id kInvalidId).2.id_map kInvalidId = some lid ∧
      (((s.alloc_id kInvalidId).2.ids.getD lid default).label = kInvalidId) ∧
      (scanPool (s.alloc_id kInvalidId).2.ids [lid] (∅, fun _ => none)).1 = {lid} := by
  unfold IdManager.alloc_id
  rw [hnm]
  simp only [Option.isSome_none, Bool.false_eq_true, if_false]
  by_cases h : s.free_ids.Nonempty
  · rw [dif_pos h]
    have hlab : ((setEntry s.ids (s.free_ids.min' h)
        { s.ids.getD (s.free_ids.min' h) default with label := kInvalidId }).getD
        (s.free_ids.min' h) default).label = kInvalidId := by
      by_cases hl : s.free_ids.min' h < s.ids.length
      · rw [setEntry_getD_self _ hl _]
      · unfold setEntry
        rw [if_neg hl, List.getD_eq_getElem?_getD, List.getElem?_eq_none (by omega)]
        rfl
    refine ⟨s.free_ids.min' h, rfl, rfl, hlab, ?_⟩
    simp only [scanPool, hlab, if_pos]
    rfl
  · rw [dif_neg h]
    rcases havail with hav | hav
    · exact absurd hav h
    · rw [if_pos hav]
      have hlab : ((setEntry s.ids s.next_id
          { s.ids.getD s.next_id default with label := kInvalidId }).getD
          s.next_id default).label = kInvalidId := by
        rw [setEntry_getD_self _ hav _]
      refine ⟨s.next_id, rfl, rfl, hlab, ?_⟩
      simp only [scanPool, hlab, if_pos]
      rfl

theorem C10_witness :
    ((IdManager.initializeM {} [] 0 1).2.inited = true) ∧
    ((IdManager.initializeM {} [] 0 1).2.id_map kInvalidId = none) ∧
    ((IdManager.initializeM {} [] 0 1).2.free_ids.Nonempty ∨
      (IdManager.initializeM {} [] 0 1).2.next_id <
        (IdManager.initializeM {} [] 0 1).2.ids.length) ∧
    (∃ lid, ((IdManager.initializeM {} [] 0 1).2.alloc_id kInvalidId).1 = .ok lid ∧
      ((IdManager.initializeM {} [] 0 1).2.alloc_id kInvalidId).2.id_map kInvalidId
        = some lid ∧
      ((((IdManager.initializeM {} [] 0 1).2.alloc_id kInvalidId).2.ids.getD lid
        default).label = kInvalidId) ∧
      (scanPool ((IdManager.initializeM {} [] 0 1).2.alloc_id kInvalidId).2.ids [lid]
        (∅, fun _ => none)).1 = {lid}) :=
  ⟨by decide, by decide, by decide,
    C10_sentinel_label_alloc (IdManager.initializeM {} [] 0 1).2
      (by decide) (by decide) (by decide)⟩

end Xann
